import Mathlib

set_option maxRecDepth 100000

/-!
Verification of the SAUCE (Standard Architecture for Universal Comment
Extensions) parser, a shallow embedding of `sauce.go`.

Byte buffers are modelled as `List Nat` (each element a byte value; Go's
`[]byte`).  Go strings obtained with `string(b[i:j])` are kept as the raw
byte lists.  Fallible functions return `Except ParseError _`, modelling the
Go convention of returning `(nil, err)` on failure — in particular no record
value exists at all in an error result.
-/

namespace Sauce

/-- Errors produced by the parsing entry points.  `shortRead` models the
`"Short read"` errors, `noSauceRecord` the `"No SAUCE record"` error, and
`seekInvalidOffset` the `"Seek: invalid offset"` error an
`io.SectionReader.Seek` call returns for a negative target position. -/
inductive ParseError
  | shortRead
  | noSauceRecord
  | seekInvalidOffset
deriving DecidableEq

/-- The bytes of `ID = [5]byte{'S','A','U','C','E'}` from the source. -/
def sauceID : List Nat := [83, 65, 85, 67, 69]

/-- The bytes of `Version = [2]byte{0, 0}` from the source. -/
def sauceVersion : List Nat := [0, 0]

/-- A calendar date (year, month, day); the date component of the Go
`time.Time` value produced by `time.Date(y, m, d, 0, 0, 0, 0, time.UTC)`. -/
structure GoDate where
  year : Int
  month : Int
  day : Int
deriving DecidableEq

/-- `isLeap` from the Go `time` package.  Go's `%` is truncated division
remainder, but a comparison of a remainder with `0` is divisibility, so the
Euclidean remainder used here agrees with it. -/
def isLeap (y : Int) : Bool :=
  y % 4 = 0 && (y % 100 != 0 || y % 400 = 0)

/-- The `daysBefore` table of the Go `time` package: the number of days in a
non-leap year before the month with zero-based index `m` (so
`daysBefore 12 = 365`). -/
def daysBefore (m : Int) : Int :=
  if m ≤ 0 then 0
  else if m = 1 then 31
  else if m = 2 then 59
  else if m = 3 then 90
  else if m = 4 then 120
  else if m = 5 then 151
  else if m = 6 then 181
  else if m = 7 then 212
  else if m = 8 then 243
  else if m = 9 then 273
  else if m = 10 then 304
  else if m = 11 then 334
  else 365

/-- `daysSinceEpoch(year)` from the Go `time` package: days from the start of
the absolute zero year `-292277022399` to the start of `year`, computed by
peeling 400-, 100- and 4-year cycles (`daysPer400Years = 146097`,
`daysPer100Years = 36524`, `daysPer4Years = 1461`).  Go performs the same
arithmetic on `uint64`; for the year magnitudes reachable from an 8-byte
date field no wrap-around occurs, so exact integer arithmetic agrees. -/
def daysSinceEpoch (year : Int) : Int :=
  let y := year - (-292277022399)
  let n400 := y / 400
  let y1 := y - 400 * n400
  let n100 := y1 / 100
  let y2 := y1 - 100 * n100
  let n4 := y2 / 4
  let y3 := y2 - 4 * n4
  146097 * n400 + 36524 * n100 + 1461 * n4 + 365 * y3

/-- The absolute day count Go `Date` computes for a month-normalised date
(`1 ≤ m ≤ 12`, `day` arbitrary): `daysSinceEpoch(year)`, plus the days
before month `m`, plus the leap day when applicable, plus `day - 1`. -/
def dateToAbsDays (year m day : Int) : Int :=
  daysSinceEpoch year + daysBefore (m - 1)
    + (if isLeap year ∧ 3 ≤ m then 1 else 0) + (day - 1)

/-- `absDate(abs, full=true)` from the Go `time` package, on the day level:
convert an absolute day count back to a normalised year/month/day, peeling
400-, 100-, 4- and 1-year cycles (with Go's `n -= n >> 2` capping of the
100-year and 1-year counts) and then splitting the day of the year with the
`daysBefore` table and the February-29 special case. -/
def absDate (days : Int) : GoDate :=
  let n1 := days / 146097
  let d1 := days - 146097 * n1
  let n2 := d1 / 36524
  let n2c := n2 - n2 / 4
  let d2 := d1 - 36524 * n2c
  let n3 := d2 / 1461
  let d3 := d2 - 1461 * n3
  let n4 := d3 / 365
  let n4c := n4 - n4 / 4
  let yday := d3 - 365 * n4c
  let year := 400 * n1 + 100 * n2c + 4 * n3 + n4c + (-292277022399)
  if isLeap year ∧ yday = 59 then { year := year, month := 2, day := 29 }
  else
    let day0 := if isLeap year ∧ 59 < yday then yday - 1 else yday
    let m0 := day0 / 31
    let monthEnd := daysBefore (m0 + 1)
    let month := if monthEnd ≤ day0 then m0 + 1 else m0
    let dBegin := if monthEnd ≤ day0 then monthEnd else daysBefore m0
    { year := year, month := month + 1, day := day0 - dBegin + 1 }

/-- Model of Go `time.Date(year, month, day, 0, 0, 0, 0, time.UTC)` restricted
to its date component: the month is first normalised into the year (Go's
`norm(year, month-1, 12)`, floor-division semantics), the date is turned
into an absolute day count (a possibly out-of-range day is absorbed there),
and the count is converted back to a normalised calendar date. -/
def goDate (year month day : Int) : GoDate :=
  let m := month - 1
  let y := year + m / 12
  let mNorm := m % 12 + 1
  absDate (dateToAbsDays y mNorm day)

/-- Model of Go `strconv.Atoi` digit accumulation: `some` of the value when
every byte is an ASCII digit, `none` otherwise. -/
def atoiDigits : List Nat → Nat → Option Nat
  | [], acc => some acc
  | c :: cs, acc =>
      if 48 ≤ c ∧ c ≤ 57 then atoiDigits cs (acc * 10 + (c - 48)) else none

/-- Model of `n, _ := strconv.Atoi(s)`: the parsed integer, or `0` when
`Atoi` reports an error (empty input, lone sign, or any non-digit byte).
An optional leading `'+'`/`'-'` is accepted as in the source.  Inputs here
are at most 4 bytes long, so `Atoi`'s overflow handling never triggers. -/
def atoi (s : List Nat) : Int :=
  match s with
  | [] => 0
  | c :: cs =>
      if c = 43 ∨ c = 45 then
        match cs with
        | [] => 0
        | _ :: _ =>
            match atoiDigits cs 0 with
            | some n => if c = 45 then -(n : Int) else (n : Int)
            | none => 0
      else
        match atoiDigits s 0 with
        | some n => (n : Int)
        | none => 0

/-- `(*SAUCE).parseDate` from the source: split the 8-byte date string into
`s[:4]`, `s[4:6]`, `s[6:8]`, parse each with `strconv.Atoi` discarding the
error, and hand the three integers to `time.Date`. -/
def parseDate (s : List Nat) : GoDate :=
  goDate (atoi (s.take 4)) (atoi ((s.drop 4).take 2)) (atoi ((s.drop 6).take 2))

/-- The `TFlags` structure of the source. -/
structure TFlags where
  NonBlink : Bool
  LetterSpacing : Nat
  Aspect : Nat  -- `AspectRatio` in the source
deriving DecidableEq

/-- The flag decoding of `ParseBytes` (lines 150–153 of the source):
`NonBlink = (tflags & 1) == 1`, `LetterSpacing = (tflags >> 1) & 3`,
`AspectRatio = (tflags >> 3) & 3`. -/
def decodeTFlags (tflags : Nat) : TFlags :=
  { NonBlink := (tflags &&& 1) == 1
    LetterSpacing := (tflags >>> 1) &&& 3
    Aspect := (tflags >>> 3) &&& 3 }

/-- The `SAUCE` record of the source.  `TInfo` holds the four decoded
`uint16` values in order. -/
structure SAUCE where
  ID : List Nat
  Version : List Nat
  Title : List Nat
  Author : List Nat
  Group : List Nat
  Date : GoDate
  FileSize : Nat
  DataType : Nat
  FileType : Nat
  TInfo : List Nat
  Comments : Nat
  TFlags : TFlags
  TInfos : List Nat
deriving DecidableEq

/-- `New()` from the source: an empty record carrying the canonical `ID` and
`Version` constants.  (Go's zero `time.Time` has date 1-01-01.) -/
def New : SAUCE :=
  { ID := sauceID
    Version := sauceVersion
    Title := []
    Author := []
    Group := []
    Date := { year := 1, month := 1, day := 1 }
    FileSize := 0
    DataType := 0
    FileType := 0
    TInfo := [0, 0, 0, 0]
    Comments := 0
    TFlags := { NonBlink := false, LetterSpacing := 0, Aspect := 0 }
    TInfos := [] }

/-- Whether byte `c` is in Go's `asciiSpace` set (`'\t' '\n' '\v' '\f' '\r' ' '`). -/
def isAsciiSpace (c : Nat) : Bool :=
  c = 32 || c = 9 || c = 10 || c = 11 || c = 12 || c = 13

/-- Model of `strings.TrimSpace` on the byte level for ASCII data (the SAUCE
text fields): strip leading and trailing bytes of Go's `asciiSpace` set. -/
def trimSpace (l : List Nat) : List Nat :=
  ((l.dropWhile isAsciiSpace).reverse.dropWhile isAsciiSpace).reverse

/-- Go indexing `b[i]` modelled as the head of `b.drop i` (the default `0` is
never reached on the in-bounds accesses `ParseBytes` performs). -/
def byteAt (b : List Nat) (i : Nat) : Nat :=
  (b.drop i).headD 0

/-- `binary.LittleEndian.Uint16` of a 2-byte slice. -/
def leUint16 (l : List Nat) : Nat :=
  l.headD 0 + 256 * (l.drop 1).headD 0

/-- `binary.LittleEndian.Uint32` of a 4-byte slice. -/
def leUint32 (l : List Nat) : Nat :=
  l.headD 0 + 256 * (l.drop 1).headD 0 + 65536 * (l.drop 2).headD 0
    + 16777216 * (l.drop 3).headD 0

/-- `ParseBytes` from the source, line for line.  A Go slice `b[x:y]` is
`(b.drop x).take (y-x)`; `o = len(b) - 128`.  The success value is `New()`
with the parsed fields assigned exactly as in lines 137–153. -/
def ParseBytes (b : List Nat) : Except ParseError SAUCE :=
  if b.length < 128 then .error .shortRead
  else
    let o := b.length - 128
    if ((b.drop o).take 5) ≠ sauceID then .error .noSauceRecord
    else
      .ok { New with
        Title := trimSpace ((b.drop (o + 7)).take 34)
        Author := trimSpace ((b.drop (o + 41)).take 20)
        Group := trimSpace ((b.drop (o + 61)).take 20)
        Date := parseDate ((b.drop (o + 82)).take 8)
        FileSize := leUint32 ((b.drop (o + 91)).take 4)
        DataType := byteAt b (o + 94)
        FileType := byteAt b (o + 95)
        TInfo := [leUint16 ((b.drop (o + 96)).take 2),
                  leUint16 ((b.drop (o + 98)).take 2),
                  leUint16 ((b.drop (o + 100)).take 2),
                  leUint16 ((b.drop (o + 102)).take 2)]
        Comments := byteAt b (o + 104)
        TFlags := decodeTFlags (byteAt b (o + 105))
        TInfos := b.drop (106 + o) }

/-- `Parse` from the source, for an `io.SectionReader` with base offset `0`
covering `data` (so `size = len(data)`).  `s.Seek(-128, 2)` computes the
absolute position `size - 128`, fails with the invalid-offset error when it
is negative, and otherwise returns it; the source then returns `errShortRead`
when that returned position `n` is `< 128`, and otherwise reads the 128 bytes
starting at `n` (exactly 128 remain there, so the `i != 128` re-check of the
source never fires) and hands them to `ParseBytes`. -/
def Parse (data : List Nat) : Except ParseError SAUCE :=
  let pos : Int := (data.length : Int) - 128
  if pos < 0 then .error .seekInvalidOffset
  else if pos < 128 then .error .shortRead
  else ParseBytes ((data.drop pos.toNat).take 128)

/-- Modelled from the spec: the distinguished data-type code for binary-text
content (`DataTypeBinaryText`), declared in a repository file outside `src/`;
value per the SAUCE standard. -/
def DataTypeBinaryText : Nat := 5

/-- Modelled from the spec: the distinguished data-type code for packed
bitmap (XBIN) content (`DataTypeXBIN`), declared outside `src/`. -/
def DataTypeXBIN : Nat := 6

/-- Modelled from the spec: the distinguished data-type code for executable
content (`DataTypeExecutable`), declared outside `src/`. -/
def DataTypeExecutable : Nat := 8

/-- Shape of the two-level classification tables (`FileType`, `MimeType` in
the repository, declared outside `src/`): a Go `map[uint8]map[uint8]string`.
An absent outer key is a `nil` inner map (`none` here); an inner map is a
total function because a missing inner key yields Go's zero string `""`. -/
def ClassTable : Type := Nat → Option (Nat → String)

/-- `(*SAUCE).FileTypeString` from the source, with the classification table
injected (spec §9): `switch FileType[r.DataType]` — on `nil`, the three
distinguished codes yield hardcoded literals and anything else falls through
to `""`; otherwise the inner lookup `FileType[r.DataType][r.FileType]`. -/
def FileTypeString (fileTypeTable : ClassTable) (r : SAUCE) : String :=
  match fileTypeTable r.DataType with
  | none =>
      if r.DataType = DataTypeBinaryText then "BinaryText"
      else if r.DataType = DataTypeXBIN then "XBin"
      else if r.DataType = DataTypeExecutable then "Executable"
      else ""
  | some inner => inner r.FileType

/-- `(*SAUCE).MimeType` from the source, with the table injected:
`switch MimeType[r.DataType]` — on `nil`, binary text and XBIN get literal
MIME strings (the executable code is not cased and `t` stays `""`);
otherwise the inner lookup; finally an empty `t` is replaced by
`"application/octet-stream"`. -/
def MimeType (mimeTable : ClassTable) (r : SAUCE) : String :=
  let t :=
    match mimeTable r.DataType with
    | none =>
        if r.DataType = DataTypeBinaryText then "text/x-binary"
        else if r.DataType = DataTypeXBIN then "text/x-xbin"
        else ""
    | some inner => inner r.FileType
  if t = "" then "application/octet-stream" else t

/-- Byte values of an ASCII string literal. -/
def asciiBytes (s : String) : List Nat := s.data.map Char.toNat

/-- The 128-byte test fixture of spec §8: `"SAUCE"`, version bytes `"00"`,
title `"Test Title"` space-padded to 34 bytes, author `"Author"` padded to
20, group `"Group"` padded to 20, a filler byte, date `"20230615"`, a filler
byte, size bytes `[0, 4, 0]` (1024 little-endian, low three bytes),
dataTypeCode `1` at window offset 94 (the byte shared with the size field),
fileTypeCode `0`, typeInfo `[80, 25, 0, 0]` little-endian, commentLineCount
`0`, flags byte `0b00000101`, and 22 zero filler bytes. -/
def fixture : List Nat :=
  sauceID ++ asciiBytes "00"
    ++ asciiBytes "Test Title" ++ List.replicate 24 32
    ++ asciiBytes "Author" ++ List.replicate 14 32
    ++ asciiBytes "Group" ++ List.replicate 15 32
    ++ [0]
    ++ asciiBytes "20230615"
    ++ [0]
    ++ [0, 4, 0]
    ++ [1, 0]
    ++ [80, 0, 25, 0, 0, 0, 0, 0]
    ++ [0, 5]
    ++ List.replicate 22 0

/-- The record `ParseBytes` produces on `fixture`. -/
def fixtureRecord : SAUCE :=
  { ID := sauceID
    Version := sauceVersion
    Title := asciiBytes "Test Title"
    Author := asciiBytes "Author"
    Group := asciiBytes "Group"
    Date := { year := 2023, month := 6, day := 15 }
    FileSize := 16778240
    DataType := 1
    FileType := 0
    TInfo := [80, 25, 0, 0]
    Comments := 0
    TFlags := { NonBlink := true, LetterSpacing := 2, Aspect := 0 }
    TInfos := List.replicate 22 0 }

/-! ## Helper lemmas -/

/-- `ParseBytes` only looks at the trailing 128-byte window: any bytes
appended in front of a window of length ≥ 128 leave the result unchanged. -/
theorem ParseBytes_append (p w : List Nat) (h : w.length = 128) :
    ParseBytes (p ++ w) = ParseBytes w := by
  have hlen : (p ++ w).length = p.length + 128 := by simp [h]
  have ho : (p ++ w).length - 128 = p.length := by omega
  have key : ∀ k : Nat, (p ++ w).drop ((p ++ w).length - 128 + k) = w.drop k := by
    intro k; rw [ho]; exact List.drop_append k
  have key0 : (p ++ w).drop ((p ++ w).length - 128) = w := by
    rw [ho]; exact List.drop_left p w
  have key106 : (p ++ w).drop (106 + ((p ++ w).length - 128)) = w.drop 106 := by
    rw [ho, Nat.add_comm 106 p.length]; exact List.drop_append 106
  have hno : ¬ (p ++ w).length < 128 := by omega
  have hno' : ¬ w.length < 128 := by omega
  simp only [ParseBytes, byteAt, key, key0, key106, hno, if_false, h,
    Nat.lt_irrefl, Nat.sub_self, Nat.zero_add, Nat.add_zero, List.drop_zero]

/-- Decomposition of `ParseBytes` over an explicit 128-byte window split as
7 header bytes (signature and the two never-read version bytes) followed by
the 121 remaining bytes: the result depends only on `u.take 5` and `t`. -/
theorem ParseBytes_window_decomp (u t : List Nat) (hu : u.length = 7)
    (ht : t.length = 121) :
    ParseBytes (u ++ t) =
      if u.take 5 ≠ sauceID then .error .noSauceRecord
      else .ok { New with
        Title := trimSpace (t.take 34)
        Author := trimSpace ((t.drop 34).take 20)
        Group := trimSpace ((t.drop 54).take 20)
        Date := parseDate ((t.drop 75).take 8)
        FileSize := leUint32 ((t.drop 84).take 4)
        DataType := (t.drop 87).headD 0
        FileType := (t.drop 88).headD 0
        TInfo := [leUint16 ((t.drop 89).take 2), leUint16 ((t.drop 91).take 2),
                  leUint16 ((t.drop 93).take 2), leUint16 ((t.drop 95).take 2)]
        Comments := (t.drop 97).headD 0
        TFlags := decodeTFlags ((t.drop 98).headD 0)
        TInfos := t.drop 99 } := by
  have hlen : (u ++ t).length = 128 := by simp [hu, ht]
  have ho : (u ++ t).length - 128 = 0 := by omega
  have key : ∀ k : Nat, (u ++ t).drop (7 + k) = t.drop k := by
    intro k; rw [← hu]; exact List.drop_append k
  have key5 : ((u ++ t).drop 0).take 5 = u.take 5 := by
    rw [List.drop_zero]; exact List.take_append_of_le_length (by omega)
  have k7 : (u ++ t).drop 7 = t := by have := key 0; simpa using this
  have k41 : (u ++ t).drop 41 = t.drop 34 := by have := key 34; norm_num at this; exact this
  have k61 : (u ++ t).drop 61 = t.drop 54 := by have := key 54; norm_num at this; exact this
  have k82 : (u ++ t).drop 82 = t.drop 75 := by have := key 75; norm_num at this; exact this
  have k91 : (u ++ t).drop 91 = t.drop 84 := by have := key 84; norm_num at this; exact this
  have k94 : (u ++ t).drop 94 = t.drop 87 := by have := key 87; norm_num at this; exact this
  have k95 : (u ++ t).drop 95 = t.drop 88 := by have := key 88; norm_num at this; exact this
  have k96 : (u ++ t).drop 96 = t.drop 89 := by have := key 89; norm_num at this; exact this
  have k98 : (u ++ t).drop 98 = t.drop 91 := by have := key 91; norm_num at this; exact this
  have k100 : (u ++ t).drop 100 = t.drop 93 := by have := key 93; norm_num at this; exact this
  have k102 : (u ++ t).drop 102 = t.drop 95 := by have := key 95; norm_num at this; exact this
  have k104 : (u ++ t).drop 104 = t.drop 97 := by have := key 97; norm_num at this; exact this
  have k105 : (u ++ t).drop 105 = t.drop 98 := by have := key 98; norm_num at this; exact this
  have k106 : (u ++ t).drop 106 = t.drop 99 := by have := key 99; norm_num at this; exact this
  have hno : ¬ (u ++ t).length < 128 := by omega
  simp only [ParseBytes, byteAt, ho, hno, if_false, Nat.zero_add, Nat.add_zero,
    key5, k7, k41, k61, k82, k91, k94, k95, k96, k98, k100, k102, k104, k105, k106]

/-- The month/day extraction step of `absDate`: for a day-of-year value in
`[0, 364]` the selected month index is in `[0, 11]` and the day of the month
in `[1, 31]`. -/
theorem monthDay_range (day0 : Int) (h0 : 0 ≤ day0) (h364 : day0 ≤ 364) :
    1 ≤ (if daysBefore (day0 / 31 + 1) ≤ day0 then day0 / 31 + 1 else day0 / 31) + 1
  ∧ (if daysBefore (day0 / 31 + 1) ≤ day0 then day0 / 31 + 1 else day0 / 31) + 1 ≤ 12
  ∧ 1 ≤ day0 - (if daysBefore (day0 / 31 + 1) ≤ day0 then daysBefore (day0 / 31 + 1)
       else daysBefore (day0 / 31)) + 1
  ∧ day0 - (if daysBefore (day0 / 31 + 1) ≤ day0 then daysBefore (day0 / 31 + 1)
       else daysBefore (day0 / 31)) + 1 ≤ 31 := by
  generalize hm : day0 / 31 = m0
  have hm1 : 0 ≤ m0 := by omega
  have hm2 : m0 ≤ 11 := by omega
  interval_cases m0 <;> norm_num [daysBefore] <;> split_ifs <;> omega

/-- `absDate` always produces a normalised calendar date: month in `[1, 12]`
and day in `[1, 31]`, whatever the day count (a day-of-year of 365 can only
arise in a leap year, by the cycle congruences, so the February adjustment
never pushes a day out of range). -/
theorem absDate_month_day_range (days : Int) :
    1 ≤ (absDate days).month ∧ (absDate days).month ≤ 12
    ∧ 1 ≤ (absDate days).day ∧ (absDate days).day ≤ 31 := by
  unfold absDate
  dsimp only
  generalize hn1 : days / 146097 = n1
  generalize hd1 : days - 146097 * n1 = d1
  generalize hn2 : d1 / 36524 = n2
  generalize hn2c : n2 - n2 / 4 = n2c
  generalize hd2 : d1 - 36524 * n2c = d2
  generalize hn3 : d2 / 1461 = n3
  generalize hd3 : d2 - 1461 * n3 = d3
  generalize hn4 : d3 / 365 = n4
  generalize hn4c : n4 - n4 / 4 = n4c
  generalize hyday : d3 - 365 * n4c = yday
  generalize hyear : 400 * n1 + 100 * n2c + 4 * n3 + n4c + (-292277022399) = year
  have hb1 : 0 ≤ d1 ∧ d1 ≤ 146096 := by omega
  have hb2 : 0 ≤ d2 ∧ d2 ≤ 36524 := by omega
  have hb3 : 0 ≤ d3 ∧ d3 ≤ 1460 := by omega
  have hb4 : 0 ≤ yday ∧ yday ≤ 365 := by omega
  have h365 : yday = 365 →
      (year % 4 = 0 ∧ (¬ year % 100 = 0 ∨ year % 400 = 0)) := by
    intro h; omega
  by_cases hFeb : isLeap year = true ∧ yday = 59
  · rw [if_pos hFeb]
    norm_num
  · rw [if_neg hFeb]
    dsimp only
    by_cases hGt : isLeap year = true ∧ 59 < yday
    · rw [if_pos hGt]
      have h60 : 59 < yday := hGt.2
      exact monthDay_range (yday - 1) (by omega) (by omega)
    · rw [if_neg hGt]
      refine monthDay_range yday (by omega) ?_
      by_contra hy
      have hy365 : yday = 365 := by omega
      have hl : isLeap year = true := by
        have hp := h365 hy365
        simp only [isLeap, Bool.and_eq_true, Bool.or_eq_true, decide_eq_true_eq,
          bne_iff_ne, ne_eq]
        tauto
      exact hGt ⟨hl, by omega⟩

/-! ## Claim theorems -/

/-- C2: `ParseBytes b` fails with the short-read error iff `len(b) < 128`,
fails with the missing-signature error iff `len(b) ≥ 128` and the 5 bytes at
offset `len(b) - 128` are not `"SAUCE"`, and succeeds in every other case.
In the `Except` embedding an error result carries no record at all,
mirroring the Go `(nil, err)` return. -/
theorem ParseBytes_error_characterisation (b : List Nat) :
    (ParseBytes b = .error .shortRead ↔ b.length < 128)
  ∧ (ParseBytes b = .error .noSauceRecord ↔
      128 ≤ b.length ∧ (b.drop (b.length - 128)).take 5 ≠ sauceID)
  ∧ (128 ≤ b.length → (b.drop (b.length - 128)).take 5 = sauceID →
      ∃ r, ParseBytes b = .ok r) := by
  by_cases h1 : b.length < 128
  · exact ⟨by simp [ParseBytes, h1], by simp [ParseBytes, h1],
      fun hge _ => absurd hge (by omega)⟩
  · by_cases h2 : (b.drop (b.length - 128)).take 5 = sauceID
    · refine ⟨by simp [ParseBytes, h1, h2], by simp [ParseBytes, h1, h2], ?_⟩
      intro _ _
      cases hE : ParseBytes b with
      | ok r => exact ⟨r, rfl⟩
      | error e => simp [ParseBytes, h1, h2] at hE
    · exact ⟨by simp [ParseBytes, h1, h2], by simp [ParseBytes, h1, h2]; omega,
        fun _ hs => absurd hs h2⟩

/-- C2 witness: on the concrete 128-byte fixture the hypotheses of the
success branch hold and a record is produced. -/
theorem ParseBytes_error_characterisation_witness :
    ∃ r, ParseBytes fixture = .ok r :=
  (ParseBytes_error_characterisation fixture).2.2 (by decide) (by decide)

/-- C9: whenever `ParseBytes` succeeds on a buffer of length ≥ 128, the
`TInfos` field of the record — the slice `b[106+o:]` — has length exactly
22, however many bytes precede the trailing 128-byte window. -/
theorem TInfos_length_eq (b : List Nat) (r : SAUCE) (hlen : 128 ≤ b.length)
    (h : ParseBytes b = .ok r) : r.TInfos.length = 22 := by
  by_cases h1 : b.length < 128
  · simp [ParseBytes, h1] at h
  · by_cases h2 : (b.drop (b.length - 128)).take 5 = sauceID
    · simp [ParseBytes, h1, h2] at h
      subst h
      simp [List.length_drop]
      omega
    · simp [ParseBytes, h1, h2] at h

/-- C9 witness: the fixture record's `TInfos` has length 22. -/
theorem TInfos_length_eq_witness : fixtureRecord.TInfos.length = 22 :=
  TInfos_length_eq fixture fixtureRecord (by decide) (by rfl)

/-- C10: `ParseBytes` is total — every buffer yields either one of the two
errors or a record — and for buffers of length ≥ 128 every byte offset
`o + k` with `k < 128` that the source indexes is in bounds (the highest
used is `o + 106`), and the string handed to `parseDate` has exactly 8
characters, so its fixed slicing `s[:4]`, `s[4:6]`, `s[6:8]` is in bounds. -/
theorem ParseBytes_total (b : List Nat) :
    (ParseBytes b = .error .shortRead ∨ ParseBytes b = .error .noSauceRecord
      ∨ ∃ r, ParseBytes b = .ok r)
  ∧ (128 ≤ b.length →
      ((b.drop (b.length - 128 + 82)).take 8).length = 8
      ∧ ∀ k, k < 128 → b.length - 128 + k < b.length) := by
  constructor
  · by_cases h1 : b.length < 128
    · exact .inl (by simp [ParseBytes, h1])
    · by_cases h2 : (b.drop (b.length - 128)).take 5 = sauceID
      · refine .inr (.inr ?_)
        cases hE : ParseBytes b with
        | ok r => exact ⟨r, rfl⟩
        | error e => simp [ParseBytes, h1, h2] at hE
      · exact .inr (.inl (by simp [ParseBytes, h1, h2]))
  · intro h
    refine ⟨?_, fun k hk => by omega⟩
    simp [List.length_take, List.length_drop]
    omega

/-- C10 witness: the in-bounds facts instantiated on the concrete fixture. -/
theorem ParseBytes_total_witness :
    ((fixture.drop (fixture.length - 128 + 82)).take 8).length = 8 :=
  ((ParseBytes_total fixture).2 (by decide)).1

/-- C1 counterexample: on the §8 fixture itself (whose byte at window offset
94 is the dataTypeCode `1`, as the claim requires), `ParseBytes` succeeds,
but the record's `FileSize` is `16778240` — the size field `b[o+91:o+95]`
shares its last byte with the dataTypeCode, so the decoded size is
`1024 + 2^24`, not `1024` — and `LetterSpacing` is `2` (9-pixel), since
`(0b00000101 >> 1) & 3 = 2`, not `1` (8-pixel) as the claim states. -/
theorem fixture_decode_counterexample :
    ParseBytes fixture = .ok fixtureRecord
    ∧ fixtureRecord.FileSize ≠ 1024
    ∧ fixtureRecord.TFlags.LetterSpacing ≠ 1
    ∧ fixtureRecord.DataType = 1 :=
  ⟨rfl, by decide, by decide, by decide⟩

/-- C1 (amended): for every buffer whose trailing 128 bytes are the §8
fixture, `ParseBytes` succeeds and yields Title `"Test Title"`, Author
`"Author"`, Group `"Group"`, Date 2023-06-15, DataType 1, FileType 0,
TInfo `[80, 25, 0, 0]`, NonBlink true, AspectRatio 0 (legacy) — but
FileSize `16778240` (the overlap of the size field with the dataTypeCode
byte) and LetterSpacing `2` (9-pixel). -/
theorem fixture_decode (b : List Nat) (h : b.drop (b.length - 128) = fixture) :
    ∃ r, ParseBytes b = .ok r
      ∧ r.Title = asciiBytes "Test Title"
      ∧ r.Author = asciiBytes "Author"
      ∧ r.Group = asciiBytes "Group"
      ∧ r.Date = { year := 2023, month := 6, day := 15 }
      ∧ r.FileSize = 16778240
      ∧ r.DataType = 1
      ∧ r.FileType = 0
      ∧ r.TInfo = [80, 25, 0, 0]
      ∧ r.TFlags.NonBlink = true
      ∧ r.TFlags.LetterSpacing = 2
      ∧ r.TFlags.Aspect = 0 := by
  have hfix : fixture.length = 128 := by decide
  have hlen : 128 ≤ b.length := by
    by_contra hc
    have h0 : b.length - 128 = 0 := by omega
    rw [h0, List.drop_zero] at h
    have := congrArg List.length h
    rw [hfix] at this
    omega
  have hb : ParseBytes b = .ok fixtureRecord := by
    calc ParseBytes b
        = ParseBytes (b.take (b.length - 128) ++ fixture) := by
          rw [← h, List.take_append_drop]
      _ = ParseBytes fixture := ParseBytes_append _ _ hfix
      _ = .ok fixtureRecord := rfl
  exact ⟨fixtureRecord, hb, rfl, rfl, rfl, rfl, rfl, rfl, rfl, rfl, rfl, rfl, rfl⟩

/-- C1 witness: instantiated at the fixture itself. -/
theorem fixture_decode_witness :
    ∃ r, ParseBytes fixture = .ok r
      ∧ r.Title = asciiBytes "Test Title"
      ∧ r.Author = asciiBytes "Author"
      ∧ r.Group = asciiBytes "Group"
      ∧ r.Date = { year := 2023, month := 6, day := 15 }
      ∧ r.FileSize = 16778240
      ∧ r.DataType = 1
      ∧ r.FileType = 0
      ∧ r.TInfo = [80, 25, 0, 0]
      ∧ r.TFlags.NonBlink = true
      ∧ r.TFlags.LetterSpacing = 2
      ∧ r.TFlags.Aspect = 0 :=
  fixture_decode fixture (by decide)

/-- C3: for every flags byte `f < 256` the decoded flags satisfy
`NonBlink ↔ f % 2 = 1`, `LetterSpacing = (f / 2) % 4 ≤ 3`,
`AspectRatio = (f / 8) % 4 ≤ 3`, no byte value is rejected (the decoder is
total by construction), and bits 5–7 have no effect on the result. -/
theorem decodeTFlags_spec (f : Nat) (h : f < 256) :
    ((decodeTFlags f).NonBlink = true ↔ f % 2 = 1)
  ∧ (decodeTFlags f).LetterSpacing = f / 2 % 4
  ∧ (decodeTFlags f).Aspect = f / 8 % 4
  ∧ (decodeTFlags f).LetterSpacing ≤ 3
  ∧ (decodeTFlags f).Aspect ≤ 3
  ∧ decodeTFlags f = decodeTFlags (f % 32) := by
  revert h
  revert f
  decide

/-- C3 witness: instantiated at the flags byte `0b10101101`, whose high
bits 5–7 are non-zero. -/
theorem decodeTFlags_spec_witness :
    ((decodeTFlags 173).NonBlink = true ↔ 173 % 2 = 1)
  ∧ (decodeTFlags 173).LetterSpacing = 173 / 2 % 4
  ∧ (decodeTFlags 173).Aspect = 173 / 8 % 4
  ∧ (decodeTFlags 173).LetterSpacing ≤ 3
  ∧ (decodeTFlags 173).Aspect ≤ 3
  ∧ decodeTFlags 173 = decodeTFlags (173 % 32) :=
  decodeTFlags_spec 173 (by decide)

/-- C4: for every 8-character input the date decoder splits it into chars
0–3, 4–5, 6–7, parses each substring independently with a failed parse
yielding 0, never raises an error (it is a total function into calendar
dates), and the combination normalises out-of-range components — the month
always lands in `[1, 12]` and the day in `[1, 31]` — instead of rejecting
them; in particular `"20231A01"` decodes with the month value 0 (the
substring `"1A"` fails to parse) to the normalised date 2022-12-01. -/
theorem parseDate_spec (s : List Nat) (h : s.length = 8) :
    parseDate s
      = goDate (atoi (s.take 4)) (atoi ((s.drop 4).take 2)) (atoi ((s.drop 6).take 2))
  ∧ (1 ≤ (parseDate s).month ∧ (parseDate s).month ≤ 12
      ∧ 1 ≤ (parseDate s).day ∧ (parseDate s).day ≤ 31)
  ∧ atoi (asciiBytes "1A") = 0
  ∧ parseDate (asciiBytes "20231A01") = goDate 2023 0 1
  ∧ goDate 2023 0 1 = { year := 2022, month := 12, day := 1 } := by
  refine ⟨rfl, ?_, by decide, by decide, by decide⟩
  unfold parseDate goDate
  exact absDate_month_day_range _

/-- C4 witness: the date normalisation facts instantiated on the concrete
well-formed date `"20230615"`. -/
theorem parseDate_spec_witness :
    1 ≤ (parseDate (asciiBytes "20230615")).month
    ∧ (parseDate (asciiBytes "20230615")).month ≤ 12
    ∧ 1 ≤ (parseDate (asciiBytes "20230615")).day
    ∧ (parseDate (asciiBytes "20230615")).day ≤ 31 :=
  (parseDate_spec (asciiBytes "20230615") (by decide)).2.1

/-- C7: on success the record's `ID` is the canonical `"SAUCE"` constant and
its `Version` is the canonical `[0, 0]`, whatever the buffer holds (the
buffer's signature bytes gate validity only); and the two version bytes at
window offsets 5–6 are never read: replacing them changes nothing about the
result of `ParseBytes`. -/
theorem signature_version_stamped :
    (∀ (b : List Nat) (r : SAUCE), ParseBytes b = .ok r →
        r.ID = sauceID ∧ r.Version = [0, 0])
  ∧ (∀ (c t : List Nat) (v5 v6 v5' v6' : Nat), c.length = 5 → t.length = 121 →
        ParseBytes (c ++ v5 :: v6 :: t) = ParseBytes (c ++ v5' :: v6' :: t)) := by
  constructor
  · intro b r h
    by_cases h1 : b.length < 128
    · simp [ParseBytes, h1] at h
    · by_cases h2 : (b.drop (b.length - 128)).take 5 = sauceID
      · simp [ParseBytes, h1, h2] at h
        subst h
        exact ⟨rfl, rfl⟩
      · simp [ParseBytes, h1, h2] at h
  · intro c t v5 v6 v5' v6' hc ht
    have e1 : c ++ v5 :: v6 :: t = (c ++ [v5, v6]) ++ t := by simp
    have e2 : c ++ v5' :: v6' :: t = (c ++ [v5', v6']) ++ t := by simp
    rw [e1, e2, ParseBytes_window_decomp _ _ (by simp [hc]) ht,
        ParseBytes_window_decomp _ _ (by simp [hc]) ht]
    have htake : (c ++ [v5, v6]).take 5 = (c ++ [v5', v6']).take 5 := by
      rw [List.take_append_of_le_length (by omega),
          List.take_append_of_le_length (by omega)]
    rw [htake]

/-- C7 witness: the first part instantiated on the concrete fixture — the
fixture record carries the canonical constants. -/
theorem signature_version_stamped_witness :
    fixtureRecord.ID = sauceID ∧ fixtureRecord.Version = [0, 0] :=
  signature_version_stamped.1 fixture fixtureRecord rfl

/-- C5: `MimeType` never returns the empty string, for every classification
table and record: with an absent per-data-type entry the binary-text code
yields `"text/x-binary"` and the XBIN code yields `"text/x-xbin"`, while the
executable code — like every other unresolved case, including a present
inner table resolving to `""` — yields `"application/octet-stream"`. -/
theorem MimeType_never_empty (tbl : ClassTable) (r : SAUCE) :
    MimeType tbl r ≠ ""
  ∧ (tbl r.DataType = none → r.DataType = DataTypeBinaryText →
      MimeType tbl r = "text/x-binary")
  ∧ (tbl r.DataType = none → r.DataType = DataTypeXBIN →
      MimeType tbl r = "text/x-xbin")
  ∧ (tbl r.DataType = none → r.DataType = DataTypeExecutable →
      MimeType tbl r = "application/octet-stream")
  ∧ (tbl r.DataType = none → r.DataType ≠ DataTypeBinaryText →
      r.DataType ≠ DataTypeXBIN →
      MimeType tbl r = "application/octet-stream")
  ∧ (∀ inner, tbl r.DataType = some inner → inner r.FileType = "" →
      MimeType tbl r = "application/octet-stream") := by
  refine ⟨?_, fun hn hbt => ?_, fun hn hxb => ?_, fun hn h8 => ?_,
    fun hn hnbt hnxb => ?_, fun inner hs he => ?_⟩
  · unfold MimeType
    cases htbl : tbl r.DataType with
    | none =>
        dsimp only
        split_ifs <;> simp_all
    | some inner =>
        dsimp only
        split_ifs with he
        · decide
        · exact he
  · unfold MimeType
    simp only [hn]
    rw [if_pos hbt]
    rfl
  · have hnbt : ¬ r.DataType = DataTypeBinaryText := by rw [hxb]; decide
    unfold MimeType
    simp only [hn]
    rw [if_neg hnbt, if_pos hxb]
    rfl
  · have hnbt : ¬ r.DataType = DataTypeBinaryText := by rw [h8]; decide
    have hnxb : ¬ r.DataType = DataTypeXBIN := by rw [h8]; decide
    unfold MimeType
    simp only [hn]
    rw [if_neg hnbt, if_neg hnxb]
    rfl
  · unfold MimeType
    simp only [hn]
    rw [if_neg hnbt, if_neg hnxb]
    rfl
  · unfold MimeType
    simp only [hs]
    rw [if_pos he]

/-- C5 witness: with an empty table, the fixture record (data-type code 1,
none of the distinguished codes) resolves to the generic fallback. -/
theorem MimeType_never_empty_witness :
    MimeType (fun _ => none) fixtureRecord = "application/octet-stream" :=
  ((((((MimeType_never_empty (fun _ => none) fixtureRecord).2).2).2).2).1)
    rfl (by decide) (by decide)

/-- C6: `FileTypeString` returns the inner lookup when the per-data-type
entry exists; otherwise the hardcoded literal `"BinaryText"`, `"XBin"` or
`"Executable"` for the three distinguished codes, and `""` for every other
code. -/
theorem FileTypeString_fallback (tbl : ClassTable) (r : SAUCE) :
    (∀ inner, tbl r.DataType = some inner →
        FileTypeString tbl r = inner r.FileType)
  ∧ (tbl r.DataType = none → r.DataType = DataTypeBinaryText →
      FileTypeString tbl r = "BinaryText")
  ∧ (tbl r.DataType = none → r.DataType = DataTypeXBIN →
      FileTypeString tbl r = "XBin")
  ∧ (tbl r.DataType = none → r.DataType = DataTypeExecutable →
      FileTypeString tbl r = "Executable")
  ∧ (tbl r.DataType = none → r.DataType ≠ DataTypeBinaryText →
      r.DataType ≠ DataTypeXBIN → r.DataType ≠ DataTypeExecutable →
      FileTypeString tbl r = "") := by
  refine ⟨fun inner hs => ?_, fun hn hbt => ?_, fun hn hxb => ?_,
    fun hn h8 => ?_, fun hn hnbt hnxb hnex => ?_⟩
  · unfold FileTypeString
    simp only [hs]
  · unfold FileTypeString
    simp only [hn]
    rw [if_pos hbt]
  · have hnbt : ¬ r.DataType = DataTypeBinaryText := by rw [hxb]; decide
    unfold FileTypeString
    simp only [hn]
    rw [if_neg hnbt, if_pos hxb]
  · have hnbt : ¬ r.DataType = DataTypeBinaryText := by rw [h8]; decide
    have hnxb : ¬ r.DataType = DataTypeXBIN := by rw [h8]; decide
    unfold FileTypeString
    simp only [hn]
    rw [if_neg hnbt, if_neg hnxb, if_pos h8]
  · unfold FileTypeString
    simp only [hn]
    rw [if_neg hnbt, if_neg hnxb, if_neg hnex]

/-- C6 witness: with an empty table, the fixture record (data-type code 1,
none of the distinguished codes) resolves to the empty string. -/
theorem FileTypeString_fallback_witness :
    FileTypeString (fun _ => none) fixtureRecord = "" :=
  ((((FileTypeString_fallback (fun _ => none) fixtureRecord).2).2).2).2
    rfl (by decide) (by decide) (by decide)

/-- C8 (code-bug evidence): `Parse` checks the position returned by
`Seek(-128, io.SeekEnd)` — which is `L - 128`, not the resource length —
against 128, so a 128-byte resource carrying a perfectly valid record (the
fixture: `ParseBytes` decodes it) is rejected with the short-read error, as
is any resource of length in `[128, 255]`; a resource shorter than 128 bytes
fails with the seek error, not the short-read error; only resources of
length ≥ 256 reach the decoder. -/
theorem Parse_section_bug :
    Parse fixture = .error .shortRead
  ∧ ParseBytes fixture = .ok fixtureRecord
  ∧ Parse (List.replicate 127 0 ++ fixture) = .error .shortRead
  ∧ ParseBytes (List.replicate 127 0 ++ fixture) = .ok fixtureRecord
  ∧ Parse (List.replicate 100 0) = .error .seekInvalidOffset
  ∧ Parse (List.replicate 128 0 ++ fixture) = ParseBytes fixture :=
  ⟨rfl, rfl, rfl,
    ParseBytes_append (List.replicate 127 0) fixture (by decide) ▸ rfl,
    rfl, rfl⟩

end Sauce
